import Mathlib

/-!
# Verification of the HelioVerify route-extraction and conformance engine

Shallow embedding of `tools/parser/routes_parser.py` and
`tools/solver/main_solver.py`.  Python strings are modelled as `String`
(`List Char` under the hood), dicts that are iterated in insertion order as
association lists, and Python sets as membership lists.  All definitions are
executable and kernel-reducible (structural recursion or explicit fuel with a
sufficiency argument given at the definition).
-/

namespace HV

/-! ## Python string primitives -/

/-- ASCII core of the regex class `\w` (`[A-Za-z0-9_]`).  The embedding models
the ASCII fragment of Python's Unicode-aware `\w`; every path in the repository
and in the specification examples is ASCII. -/
def isWordChar (c : Char) : Bool := c.isAlphanum || c == '_'

/-- Whether a character list starts with a `\w` character. -/
def headIsWord : List Char → Bool
  | [] => false
  | d :: _ => isWordChar d

/-- One-pass model of `re.sub(r':(\w+)', r'{\1}', path)` from
`Z3MicroservicesSolver._normalize_path` (main_solver.py:191).  The Boolean
state records whether we are currently inside a parameter word that was opened
with `{`; leftmost, non-overlapping, greedy matching of `:(\w+)` is exactly
this scan. -/
def substScan : Bool → List Char → List Char
  | true, [] => ['}']
  | false, [] => []
  | true, c :: rest =>
    if isWordChar c then c :: substScan true rest
    else if c == ':' && headIsWord rest then '}' :: '{' :: substScan true rest
    else '}' :: c :: substScan false rest
  | false, c :: rest =>
    if c == ':' && headIsWord rest then '{' :: substScan true rest
    else c :: substScan false rest

/-- `re.sub(r':(\w+)', r'{\1}', path)` on the character list of a path. -/
def substParams (l : List Char) : List Char := substScan false l

/-- `path.endswith('/')` as a test on the character list. -/
def lastIsSlash (l : List Char) : Bool := l.getLast? == some '/'

/-- `if path.endswith('/') and len(path) > 1: path = path[:-1]`
(main_solver.py:192-193). -/
def stripSlash (l : List Char) : List Char :=
  if lastIsSlash l && decide (1 < l.length) then l.dropLast else l

/-- `Z3MicroservicesSolver._normalize_path` (main_solver.py:190-194):
substitute `:name` parameter tokens by `{name}`, then strip one trailing
slash unless the path is a single character. -/
def normalizePath (p : String) : String := String.mk (stripSlash (substParams p.data))

/-- `str.split()` with no argument: split on runs of whitespace, discarding
empty words.  `cur` accumulates the current word reversed. -/
def pyWordsAux : List Char → List Char → List (List Char)
  | cur, [] => if cur.isEmpty then [] else [cur.reverse]
  | cur, c :: rest =>
    if c.isWhitespace then
      if cur.isEmpty then pyWordsAux [] rest else cur.reverse :: pyWordsAux [] rest
    else pyWordsAux (c :: cur) rest

/-- Python `s.split()` (whitespace words). -/
def pyWords (s : String) : List String := (pyWordsAux [] s.data).map String.mk

/-- Whether `pat` is a prefix of `l` (used to model Python substring search). -/
def startsWithL : List Char → List Char → Bool
  | [], _ => true
  | _ :: _, [] => false
  | p :: ps, c :: cs => p == c && startsWithL ps cs

/-- Python `pat in s`: substring containment on character lists. -/
def occursL (pat : List Char) : List Char → Bool
  | [] => pat.isEmpty
  | c :: rest => startsWithL pat (c :: rest) || occursL pat rest

/-- Python `pat in hay` on strings. -/
def containsSub (hay pat : String) : Bool := occursL pat.data hay.data

/-- Python `s.replace(pat, rep)`: leftmost, non-overlapping replacement.
Implemented with fuel so that the kernel can evaluate it; each step consumes
at least one character, so fuel `l.length` makes the function agree with
Python's `str.replace` on every input. -/
def replaceFuel (pat rep : List Char) : Nat → List Char → List Char
  | 0, l => l
  | _ + 1, [] => []
  | fuel + 1, c :: rest =>
    if !pat.isEmpty && startsWithL pat (c :: rest) then
      rep ++ replaceFuel pat rep fuel ((c :: rest).drop pat.length)
    else c :: replaceFuel pat rep fuel rest

/-- Python `s.replace(pat, rep)` on strings (the solver only calls it with a
nonempty pattern). -/
def replaceAllS (s pat rep : String) : String :=
  String.mk (replaceFuel pat.data rep.data s.data.length s.data)

/-- Python `s.lower()` (ASCII; every middleware keyword compared against is
ASCII). -/
def toLowerS (s : String) : String := String.mk (s.data.map Char.toLower)

/-- Python `s.upper()` (ASCII). -/
def toUpperS (s : String) : String := String.mk (s.data.map Char.toUpper)

/-- Python `'sep'.join(words)`. -/
def joinSep (sep : String) : List String → String
  | [] => ""
  | [x] => x
  | x :: y :: rest => x ++ sep ++ joinSep sep (y :: rest)

/-! ## Auxiliary predicate for path-normalization idempotence

`noMatch l` says that `l` contains no occurrence of the pattern `:(\w+)`,
i.e. no `':'` immediately followed by a word character. -/

/-- No `':'` immediately followed by a `\w` character anywhere in the list. -/
def noMatch : List Char → Bool
  | [] => true
  | c :: rest => (!(c == ':' && headIsWord rest)) && noMatch rest

/-! ## Data model

`Route` mirrors the route dicts produced by the extractors in
routes_parser.py and consumed by main_solver.py. -/

structure Route where
  name : String
  method : String
  path : String
  middleware : List String
  handler : String
deriving DecidableEq, Repr

/-- One entry of the `communications` list of the specification document, in
its structured-object shape `{source, target, type}` (spec §6).  A missing or
`None` field is modelled as the empty string, which is exactly Python's falsy
case in `if source and target`.  The legacy `"A -> B"` string shape
(main_solver.py:111-116) is not part of the modelled input domain: spec §6
declares only the structured shape and §9 flags the string form as an open
question. -/
structure CommEdge where
  source : String
  target : String
  type : String
deriving DecidableEq, Repr

/-- `{method, path}` of one spec route in the raw specification document. -/
structure RawRouteDetails where
  method : String
  path : String
deriving DecidableEq, Repr

/-- The raw specification document read by
`Z3MicroservicesSolver.parse_specs_file` (main_solver.py:164-182).  Python
dicts iterated in insertion order are association lists; `policies` is split
into its two consulted keys `authRequired` and `timeout`. -/
structure RawSpecs where
  services : List (String × List (String × RawRouteDetails))
  communications : List CommEdge
  authRequired : List String
  timeout : List String
deriving Repr

/-- The internal specification produced by `parse_specs_file`: each kept route
is stored as the string `f"{method} {path}"`. -/
structure Specs where
  services : List (String × List (String × String))
  communications : List CommEdge
  authRequired : List String
  timeout : List String
deriving Repr

/-- `parse_specs_file` (main_solver.py:164-182): keep a route only when both
`method` and `path` are truthy (nonempty), storing `f"{method} {path}"`. -/
def parseSpecsFile (raw : RawSpecs) : Specs :=
  { services := raw.services.map (fun sv =>
      (sv.1, sv.2.filterMap (fun rt =>
        if rt.2.method ≠ "" ∧ rt.2.path ≠ "" then
          some (rt.1, rt.2.method ++ " " ++ rt.2.path)
        else none)))
    communications := raw.communications
    authRequired := raw.authRequired
    timeout := raw.timeout }

/-- One value of the `services` mapping of the implementation route document
(`routes.json`), as produced by `RouteParser.parse_files`. -/
structure ServiceEntry where
  port : Option Int
  filePath : String
  framework : String
  routes : List Route
deriving Repr

/-- The implementation route document: `{services: ..., metadata: ...}`. -/
structure RoutesDoc where
  services : List (String × ServiceEntry)
  totalServices : Nat
  totalRoutes : Nat
deriving Repr

/-- The flattening `verify` performs before analysis
(main_solver.py:289-292): all services' route lists concatenated in mapping
order. -/
def allRoutes (rd : RoutesDoc) : List Route :=
  (rd.services.map (fun sv => sv.2.routes)).flatten

/-- The result record built by `verify` (main_solver.py:146-152).  The model,
when present, is the dict produced by `_z3_model_to_dict`; every value the
solver can assign in this program is a Boolean. -/
structure VerificationResult where
  is_sat : Bool
  model : Option (List (String × Bool)) := none
  errors : List String := []
  warnings : List String := []
  suggestions : List String := []
deriving DecidableEq, Repr

/-! ## SecurityAnalyzer (main_solver.py:25-44) -/

def authKeywords : List String := ["auth", "authenticate", "verify", "protect", "jwt"]

def validationKeywords : List String := ["validate", "sanitize", "check"]

/-- `SecurityAnalyzer._has_auth_middleware`: some middleware name contains
some auth keyword as a case-insensitive substring. -/
def hasAuthMiddleware (mws : List String) : Bool :=
  mws.any (fun mw => authKeywords.any (fun k => containsSub (toLowerS mw) k))

/-- `SecurityAnalyzer._has_validation_middleware`. -/
def hasValidationMiddleware (mws : List String) : Bool :=
  mws.any (fun mw => validationKeywords.any (fun k => containsSub (toLowerS mw) k))

def authWarning (r : Route) : String :=
  "Security Warning: Missing authentication on sensitive route " ++ r.method ++ " " ++ r.path

def validationWarning (r : Route) : String :=
  "Security Warning: Missing input validation on parameterized route " ++ r.path

/-- The warnings `SecurityAnalyzer.analyze` appends for a single route, in
order: the auth warning for a mutating method without auth middleware, then
the validation warning for a parameterized path without validation
middleware. -/
def securityPerRoute (r : Route) : List String :=
  (if (r.method == "POST" || r.method == "PUT" || r.method == "DELETE")
      && !hasAuthMiddleware r.middleware then [authWarning r] else [])
  ++ (if (r.path.data.contains ':' || r.path.data.contains '{')
      && !hasValidationMiddleware r.middleware then [validationWarning r] else [])

/-- `SecurityAnalyzer.analyze` over the flattened route list. -/
def securityAnalyze (routes : List Route) : List String :=
  (routes.map securityPerRoute).flatten

/-! ## Dependency graphs (main_solver.py:79-144)

A graph is an association list from a node to its ordered successor list;
`setdefault(source, []).append(target)` preserves key insertion order and
appends to the value list, which `addEdge` mirrors exactly. -/

abbrev Graph := List (String × List String)

def addEdge (g : Graph) (s t : String) : Graph :=
  match g with
  | [] => [(s, [t])]
  | (k, vs) :: rest => if k == s then (k, vs ++ [t]) :: rest else (k, vs) :: addEdge rest s t

/-- `graph.get(node, [])`. -/
def lookupAdj (g : Graph) (n : String) : List String :=
  match g.find? (fun e => e.1 == n) with
  | some e => e.2
  | none => []

/-- `DependencyAnalyzer._build_dependency_graph` (main_solver.py:103-117) on
structured edges: an edge is added whenever `source` and `target` are truthy;
the `type` field is NOT consulted. -/
def buildDepGraph (comms : List CommEdge) : Graph :=
  comms.foldl (fun g c => if c.source ≠ "" ∧ c.target ≠ "" then addEdge g c.source c.target else g) []

/-- `PerformanceAnalyzer.build_dependency_graph` (main_solver.py:79-94) on
structured edges: unlike the cycle-gate builder, this one also requires
`comm.type == 'sync'`. -/
def buildSyncGraph (comms : List CommEdge) : Graph :=
  comms.foldl
    (fun g c =>
      if c.source ≠ "" ∧ c.target ≠ "" ∧ c.type = "sync" then addEdge g c.source c.target else g) []

/-- Python `list.index` for an element known to occur. -/
def idxOf (x : String) : List String → Nat
  | [] => 0
  | y :: ys => if y == x then 0 else idxOf x ys + 1

/-- All node names mentioned by a graph (with repetitions); its length bounds
the number of distinct nodes and hence the DFS recursion depth. -/
def graphNodes (g : Graph) : List String :=
  g.map Prod.fst ++ (g.map Prod.snd).flatten

/-- The recursive `dfs` of `DependencyAnalyzer._detect_cycles`
(main_solver.py:119-135).  State is `(visited, cycles)`; `path` is the
explicit recursion path (the node is appended on entry, and the functional
recursion makes the `path.pop()` implicit).  A back-edge to a node on the
current path records `path[path.index(nb):] + [nb]`.  Fuel only bounds the
recursion depth: `dfs` recurses only on unvisited nodes and marks each node
visited on entry, so the depth never exceeds the number of distinct nodes and
any fuel above `(graphNodes g).length` reproduces the Python run exactly. -/
def dfsNode (adj : Graph) :
    Nat → String → List String → List String × List (List String) →
      List String × List (List String)
  | 0, _, _, st => st
  | fuel + 1, node, path, st =>
    let path2 := path ++ [node]
    let vis := if node ∈ st.1 then st.1 else node :: st.1
    (lookupAdj adj node).foldl
      (fun st2 nb =>
        if nb ∈ path2 then (st2.1, st2.2 ++ [path2.drop (idxOf nb path2) ++ [nb]])
        else if nb ∈ st2.1 then st2
        else dfsNode adj fuel nb path2 st2)
      (vis, st.2)

/-- The raw cycle list of `_detect_cycles`, before deduplication: run `dfs`
from every not-yet-visited key in insertion order. -/
def detectCyclesRaw (g : Graph) : List (List String) :=
  (g.foldl
    (fun st e => if e.1 ∈ st.1 then st else dfsNode g ((graphNodes g).length + 1) e.1 [] st)
    ([], [])).2

/-- Lexicographic comparison of strings by code point, the order Python's
`sorted` uses on strings. -/
def leL : List Char → List Char → Bool
  | [], _ => true
  | _ :: _, [] => false
  | a :: as, b :: bs => if a == b then leL as bs else decide (a < b)

def strLe (a b : String) : Bool := leL a.data b.data

def insertSorted (x : String) : List String → List String
  | [] => [x]
  | y :: ys => if strLe x y then x :: y :: ys else y :: insertSorted x ys

/-- `tuple(sorted(cycle))`: the canonical form under which recorded cycles are
deduplicated.  Any sort by a total antisymmetric order yields the same
canonical-form equalities as Python's `sorted`, because two keys are equal
exactly when the recorded cycles are equal as multisets. -/
def sortStrings (l : List String) : List String := l.foldr insertSorted []

/-- The dedup loop of `_detect_cycles` (main_solver.py:137-144): keep a
recorded cycle (with its closing repeat removed, `cycle[:-1]`) when its sorted
form is new. -/
def uniqueCyclesAux : List (List String) → List (List String) → List (List String)
  | _, [] => []
  | seen, c :: rest =>
    let k := sortStrings c
    if k ∈ seen then uniqueCyclesAux seen rest
    else c.dropLast :: uniqueCyclesAux (k :: seen) rest

def detectCycles (g : Graph) : List (List String) := uniqueCyclesAux [] (detectCyclesRaw g)

/-- `DependencyAnalyzer.find_cycles` message format (main_solver.py:101):
`' -> '.join(cycle + [cycle[0]])`.  A recorded deduplicated cycle is never
empty (it starts at a node of the recursion path). -/
def formatCycle (c : List String) : String :=
  "Architectural Error: Circular dependency detected: " ++
    (match c with
     | [] => ""
     | h :: _ => joinSep " -> " (c ++ [h]))

/-- `MicroservicesAnalyzer.analyze_circular_dependencies`: one formatted
message per kept cycle. -/
def findCycleMessages (comms : List CommEdge) : List String :=
  (detectCycles (buildDepGraph comms)).map formatCycle

/-! ## PerformanceAnalyzer (main_solver.py:47-77) -/

/-- The explicit-stack DFS of `_find_synchronous_chains`
(main_solver.py:60-77).  The stack is represented top-first, so pushing the
unvisited successors reversed reproduces CPython's `list.append`/`list.pop`
order exactly.  Fuel bounds the number of loop iterations, i.e. the number of
partial simple paths explored, which `chainFuel` over-approximates. -/
def chainLoop (adj : Graph) :
    Nat → List (String × List String) → List (List String) → List (List String)
  | 0, _, acc => acc
  | _ + 1, [], acc => acc
  | fuel + 1, (curr, p) :: stackRest, acc =>
    let nexts := (lookupAdj adj curr).filter (fun nb => nb ∉ p)
    let stack2 := (nexts.map (fun nb => (nb, p ++ [nb]))).reverse ++ stackRest
    let acc2 := if nexts.isEmpty ∧ 1 < p.length then acc ++ [p] else acc
    chainLoop adj fuel stack2 acc2

/-- A generous iteration bound: the number of partial simple paths in a graph
with `n` distinct nodes is below `(n+2)!`. -/
def chainFuel (adj : Graph) : Nat := Nat.factorial ((graphNodes adj).length + 2)

/-- `_find_synchronous_chains`: run the stack DFS from every key in insertion
order, accumulating leaf paths of length above one. -/
def findSyncChains (adj : Graph) : List (List String) :=
  adj.foldl (fun acc e => chainLoop adj (chainFuel adj) [(e.1, [e.1])] acc) []

def timeoutWarning : String :=
  "Performance Warning: No global timeout policies defined, which could lead to hanging requests."

def chainWarning (chain : List String) : String :=
  "Performance Warning: Long synchronous call chain detected: " ++ joinSep " -> " chain

/-- `PerformanceAnalyzer.analyze` (main_solver.py:48-58): one warning per
synchronous chain longer than three nodes, then one warning when the
`policies.timeout` list is empty. -/
def performanceAnalyze (specs : Specs) : List String :=
  ((findSyncChains (buildSyncGraph specs.communications)).filterMap
    (fun chain => if 3 < chain.length then some (chainWarning chain) else none))
  ++ (if specs.timeout.isEmpty then [timeoutWarning] else [])

/-! ## Symbolic model and solver (main_solver.py:155-315)

Model of the Z3 `Solver` as this program uses it.  Every assertion ever made
is `assert_and_track(BoolVal(False), name)` (main_solver.py:240-246), so the
solver state is exactly the ordered list of tracker names.  `check()` is
`sat` iff no tracked assertion was made.  Two `assert_and_track` calls with
the same name reuse the same tracker constant, so the unsat core is the list
of names with duplicates removed (first occurrence kept); with a single
tracked assumption — the situation of every claim below — Z3's core provably
equals this list.  In the `sat` case the assertion set is empty; a Z3 model
interprets only constants that occur in assertions, so `model().decls()` is
empty and `_z3_model_to_dict` returns the empty dict. -/

/-- `_z3_model_to_dict` (main_solver.py:250-260) in the only state in which
it is called: a `sat` check of an empty assertion set yields a model with no
declarations. -/
def z3ModelToDict (_tracked : List String) : List (String × Bool) := []

/-- Keep the first occurrence of each name (the identification of equal-named
trackers, see above). -/
def dedupStrAux (seen : List String) : List String → List String
  | [] => []
  | x :: xs => if x ∈ seen then dedupStrAux seen xs else x :: dedupStrAux (x :: seen) xs

def authAssumptionName (v : String) : String := "policy_violation:auth_missing_on_" ++ v

def routeMissingAssumptionName (v : String) : String :=
  "policy_violation:required_route_missing_" ++ v

/-- `_interpret_unsat_core` (main_solver.py:262-279).  The `Z3Exception`
fallback (core unavailable) cannot occur in the modelled solver and is not
represented. -/
def interpretCore (core : List String) : List String :=
  core.map (fun cs =>
    if containsSub cs "policy_violation:auth_missing_on_" then
      "Policy Violation: Authentication is required for route '" ++
        replaceAllS cs "policy_violation:auth_missing_on_" "" ++
        "' but is not implemented in its middleware."
    else if containsSub cs "policy_violation:required_route_missing_" then
      "Policy Violation: The route '" ++
        replaceAllS cs "policy_violation:required_route_missing_" "" ++
        "', which requires authentication, is not implemented."
    else "Unsatisfiable Constraint: " ++ cs)

/-- The keys of `route_vars` after `_create_z3_variables`
(main_solver.py:184-188): one `f"{service}_{route}"` name per spec route. -/
def routeVarNames (specs : Specs) : List String :=
  (specs.services.map (fun sv => sv.2.map (fun rt => sv.1 ++ "_" ++ rt.1))).flatten

/-- All Boolean terms `_create_z3_variables` allocates, in allocation order:
per service its `service_{name}` term, then one term per spec route. -/
def allocatedTerms (specs : Specs) : List String :=
  (specs.services.map (fun sv =>
    ("service_" ++ sv.1) :: sv.2.map (fun rt => sv.1 ++ "_" ++ rt.1))).flatten

/-- The shared match predicate: `r['method'] == method and
self._normalize_path(r['path']) == normalized_spec_path`, used both by
`_add_policy_constraints` (main_solver.py:230) and by
`_check_spec_implementation_consistency` (main_solver.py:207). -/
def routeMatches (method npath : String) (r : Route) : Bool :=
  r.method == method && normalizePath r.path == npath

/-- `next((r for r in defined_routes if ...), None)` (main_solver.py:230). -/
def implMatch (defined : List Route) (method npath : String) : Option Route :=
  defined.find? (routeMatches method npath)

/-- The double loop of `_add_policy_constraints` that locates the spec route
carrying a policy's name: services in insertion order, first service whose
route mapping contains the name wins, yielding
`(service name, route name, route spec string)`. -/
def firstRouteMatch : List (String × List (String × String)) → String →
    Option (String × String × String)
  | [], _ => none
  | (sname, rts) :: rest, pn =>
    match rts.find? (fun rt => rt.1 == pn) with
    | some rt => some (sname, rt.1, rt.2)
    | none => firstRouteMatch rest pn

/-- The tracker names `_add_policy_constraints` (main_solver.py:218-248)
registers for one entry of `policies.authRequired`.  `route_spec_str.split()`
yielding fewer than two tokens would raise `ValueError` in the source; it
cannot happen for a spec produced by `parse_specs_file` from whitespace-free
`method`/`path` fields, and the modelled loop skips such an entry. -/
def policyConstraint (specs : Specs) (defined : List Route) (pn : String) : List String :=
  match firstRouteMatch specs.services pn with
  | none => []
  | some (sname, rn, specStr) =>
    match pyWords specStr with
    | method :: path :: _ =>
      let v := sname ++ "_" ++ rn
      if v ∈ routeVarNames specs then
        match implMatch defined method (normalizePath path) with
        | some r => if hasAuthMiddleware r.middleware then [] else [authAssumptionName v]
        | none => [routeMissingAssumptionName v]
      else []
    | _ => []

/-- `_add_policy_constraints`: the ordered list of tracked (always-false)
assumptions asserted into the solver. -/
def addPolicyConstraints (specs : Specs) (defined : List Route) : List String :=
  (specs.authRequired.map (policyConstraint specs defined)).flatten

/-- `_check_spec_implementation_consistency` (main_solver.py:196-216): one
suggestion per spec route with no method + normalized-path match. -/
def consistencySuggestions (specs : Specs) (defined : List Route) : List String :=
  (specs.services.map (fun sv =>
    (sv.2.map (fun rt =>
      match pyWords rt.2 with
      | method :: path :: _ =>
        if defined.any (routeMatches method (normalizePath path)) then []
        else
          ["Missing Implementation: Route '" ++ rt.1 ++ "' (" ++ method ++ " " ++ path ++
            ") is defined in the spec for service '" ++ sv.1 ++
            "' but is not found in routes.json. Consider implementing it."]
      | _ => [])).flatten)).flatten

/-- `verify` (main_solver.py:281-315) instrumented with the two control-flow
facts the spec talks about: the tracked assumptions asserted into the solver
and whether `self.solver.check()` was reached.  The file-loading failure
branch (main_solver.py:282-287) is outside the embedding: inputs arrive as
already-parsed documents. -/
structure VerifyTrace where
  result : VerificationResult
  tracked : List String
  solverInvoked : Bool
deriving Repr

def verifyI (raw : RawSpecs) (rd : RoutesDoc) : VerifyTrace :=
  let specs := parseSpecsFile raw
  let rts := allRoutes rd
  let circular := findCycleMessages specs.communications
  if circular.isEmpty then
    let tracked := addPolicyConstraints specs rts
    let satQ := tracked.isEmpty
    let base : VerificationResult :=
      if satQ then { is_sat := true, model := some (z3ModelToDict tracked) }
      else { is_sat := false, errors := interpretCore (dedupStrAux [] tracked) }
    { result :=
        { base with
          suggestions := base.suggestions ++ consistencySuggestions specs rts
          warnings := base.warnings ++ securityAnalyze rts ++ performanceAnalyze specs }
      tracked := tracked
      solverInvoked := true }
  else
    { result := { is_sat := false, errors := circular }
      tracked := []
      solverInvoked := false }

/-- `Z3MicroservicesSolver.verify`: the returned `VerificationResult`. -/
def verify (raw : RawSpecs) (rd : RoutesDoc) : VerificationResult := (verifyI raw rd).result

/-! ## Route extraction (routes_parser.py)

`_generate_route_name` (routes_parser.py:34-36) and the Go extractor are
embedded concretely.  The regex engine itself is not re-implemented: a Go
file's extraction outcome is the list of capture-group tuples its three
patterns produce, and `GoParser.parse` is the function from those matches to
routes — which is where the invariant of interest (`middleware` is always the
empty list, routes_parser.py:369) lives. -/

/-- Collapse every maximal run of `[\W_]` characters (anything that is not
alphanumeric) into a single `'_'`: `re.sub(r'[\W_]+', '_', path)`.  The
Boolean state records whether the previous character was part of such a
run. -/
def collapseAux : Bool → List Char → List Char
  | _, [] => []
  | prevNon, c :: rest =>
    if c.isAlphanum then c :: collapseAux false rest
    else if prevNon then collapseAux true rest
    else '_' :: collapseAux true rest

/-- `.strip('_')`. -/
def stripUnderscores (l : List Char) : List Char :=
  ((l.dropWhile (fun c => c == '_')).reverse.dropWhile (fun c => c == '_')).reverse

/-- `_generate_route_name(method, path)`:
`f"{method.lower()}_{clean_path or 'root'}"`. -/
def genRouteName (method path : String) : String :=
  let cleaned := stripUnderscores (collapseAux false path.data)
  toLowerS method ++ "_" ++ (if cleaned.isEmpty then "root" else String.mk cleaned)

/-- The capture groups of the three Go route patterns
(routes_parser.py:337-344): `http.HandleFunc("/p", h)` (groups: path,
handler), and the Gin / Fiber shapes (groups: receiver, verb, path,
handler). -/
structure GoMatches where
  handleFunc : List (List String)
  ginStyle : List (List String)
  fiberStyle : List (List String)
deriving DecidableEq, Repr

/-- A route built from a `http.HandleFunc` match: method `ANY`, empty
middleware (routes_parser.py:357-359, 365-371). -/
def goRouteOfAny (g : List String) : List Route :=
  match g with
  | p :: h :: _ =>
    [{ name := genRouteName "ANY" p, method := "ANY", path := p, middleware := [], handler := h }]
  | _ => []

/-- A route built from a verb-style match: method upper-cased, empty
middleware (routes_parser.py:360-371). -/
def goRouteOfVerb (g : List String) : List Route :=
  match g with
  | _ :: meth :: p :: h :: _ =>
    [{ name := genRouteName (toUpperS meth) p, method := toUpperS meth, path := p,
       middleware := [], handler := h }]
  | _ => []

/-- `GoParser.parse` on a readable file, as a function of its pattern
matches: patterns are tried in declaration order, matches in text order. -/
def goParse (ms : GoMatches) : List Route :=
  (ms.handleFunc.map goRouteOfAny).flatten
  ++ (ms.ginStyle.map goRouteOfVerb).flatten
  ++ (ms.fiberStyle.map goRouteOfVerb).flatten

/-- Outcome of one framework extractor run — the `(routes, port)` pair each
`parse` method returns.  These methods catch every exception internally and
return `([], None)` on failure (routes_parser.py:130-140, 236-246, 289-326,
347-383), so an outcome value faithfully summarises them. -/
structure ExtractOutcome where
  routes : List Route
  port : Option Int
deriving Repr

def emptyOutcome : ExtractOutcome := { routes := [], port := none }

/-- One input file of `RouteParser.parse_files`, carrying the data the
dispatcher (routes_parser.py:420-516) branches on.  The framework-specific
regex/AST extractors are abstracted by their outcomes (see `ExtractOutcome`);
the Go extractor is carried as its pattern matches and run through `goParse`.
`readOk` is whether `open()` succeeds; an unreadable file makes the
dispatcher's own `open` (for `.py` and unrecognized extensions) raise into
the `except` of routes_parser.py:482-483, while the per-framework parsers
swallow the failure themselves and return `([], None)`. -/
structure FileDesc where
  path : String
  readOk : Bool
  express : ExtractOutcome
  flask : ExtractOutcome
  fastapi : ExtractOutcome
  goMatches : GoMatches
  goPort : Option Int
  pyParses : Bool
  pyDetect : String
  mentionsFlask : Bool
  mentionsFastAPI : Bool
  expressMarker : Bool
deriving Repr

def defaultFile : FileDesc :=
  { path := "", readOk := true, express := emptyOutcome, flask := emptyOutcome,
    fastapi := emptyOutcome, goMatches := ⟨[], [], []⟩, goPort := none, pyParses := true,
    pyDetect := "Unknown", mentionsFlask := false, mentionsFastAPI := false,
    expressMarker := false }

/-- The final path component (`pathlib` name), with trailing slashes
dropped. -/
def lastComponent (p : String) : List Char :=
  ((p.data.reverse.dropWhile (fun c => c == '/')).reverse).foldl
    (fun acc c => if c == '/' then [] else acc ++ [c]) []

/-- Index of the first occurrence of a character (list length if absent). -/
def idxOfChar (c : Char) : List Char → Nat
  | [] => 0
  | d :: ds => if d == c then 0 else idxOfChar c ds + 1

/-- `PurePath.suffix`: the extension from the last dot of the name, present
only when that dot is neither the first nor the last character. -/
def pathSuffix (p : String) : String :=
  let name := lastComponent p
  let j := idxOfChar '.' name.reverse
  if 0 < j ∧ j < name.length - 1 then String.mk (name.drop (name.length - 1 - j)) else ""

/-- `PurePath.stem`: the name with `pathSuffix` removed. -/
def pathStem (p : String) : String :=
  let name := lastComponent p
  let j := idxOfChar '.' name.reverse
  if 0 < j ∧ j < name.length - 1 then String.mk (name.take (name.length - 1 - j))
  else String.mk name

/-- `str.capitalize()`: first character upper-cased, the rest lower-cased
(ASCII). -/
def capWord (s : String) : String :=
  match s.data with
  | [] => ""
  | c :: r => String.mk (Char.toUpper c :: r.map Char.toLower)

/-- Python `stem.split('-')`: split on every separator occurrence, keeping
empty pieces. -/
def splitDashAux (cur : List Char) : List Char → List (List Char)
  | [] => [cur.reverse]
  | d :: ds => if d == '-' then cur.reverse :: splitDashAux [] ds else splitDashAux (d :: cur) ds

/-- `"".join(word.capitalize() for word in file.stem.split('-')) or "Routes"`
(routes_parser.py:486). -/
def baseNameOf (p : String) : String :=
  let b := ((splitDashAux [] (pathStem p).data).map (fun w => capWord (String.mk w))).foldr
    (fun a acc => a ++ acc) ""
  if b == "" then "Routes" else b

/-- The collision loop of routes_parser.py:487-491: try `{base}Service`, then
`{base}Service2`, `{base}Service3`, ...  The candidates are pairwise
distinct, so at most `used.length` of them can collide and fuel
`used.length + 1` always suffices to reproduce the `while` loop. -/
def freshAux (used : List String) (base : String) : Nat → Nat → String
  | 0, i => base ++ "Service" ++ toString i
  | fuel + 1, i =>
    let cand := base ++ "Service" ++ toString i
    if cand ∈ used then freshAux used base fuel (i + 1) else cand

def freshServiceName (used : List String) (base : String) : String :=
  if (base ++ "Service") ∈ used then freshAux used base (used.length + 1) 2
  else base ++ "Service"

/-- The per-file body of `parse_files` (routes_parser.py:430-483): dispatch
on the extension, with the `except` clause leaving the initial
`routes = []`, `port = None`, `framework = "Unknown"` in place when the
dispatcher's own `open()` raises. -/
structure FileResult where
  routes : List Route
  port : Option Int
  framework : String
deriving Repr

/-- Python `f_port or fa_port` on optional ints (`None` and `0` are falsy). -/
def pyPortOr (a b : Option Int) : Option Int :=
  match a with
  | some v => if v == 0 then b else some v
  | none => b

def processFile (f : FileDesc) : FileResult :=
  let sfx := pathSuffix f.path
  if sfx == ".js" then
    let o := if f.readOk then f.express else emptyOutcome
    { routes := o.routes, port := o.port, framework := "Express.js" }
  else if sfx == ".py" then
    if !f.readOk then { routes := [], port := none, framework := "Unknown" }
    else
      let fw :=
        if f.pyParses then f.pyDetect
        else if f.mentionsFlask then "Flask"
        else if f.mentionsFastAPI then "FastAPI"
        else "Unknown"
      if fw == "Flask" then
        { routes := f.flask.routes, port := f.flask.port, framework := "Flask" }
      else if fw == "FastAPI" then
        { routes := f.fastapi.routes, port := f.fastapi.port, framework := "FastAPI" }
      else if !f.flask.routes.isEmpty && f.fastapi.routes.isEmpty then
        { routes := f.flask.routes, port := f.flask.port, framework := "Flask" }
      else if !f.fastapi.routes.isEmpty && f.flask.routes.isEmpty then
        { routes := f.fastapi.routes, port := f.fastapi.port, framework := "FastAPI" }
      else
        let rts := f.flask.routes ++ f.fastapi.routes
        { routes := rts, port := pyPortOr f.flask.port f.fastapi.port,
          framework := if rts.isEmpty then fw else "Mixed" }
  else if sfx == ".go" || sfx == ".golang" then
    if f.readOk then { routes := goParse f.goMatches, port := f.goPort, framework := "Go" }
    else { routes := [], port := none, framework := "Go" }
  else
    if !f.readOk then { routes := [], port := none, framework := "Unknown" }
    else if f.expressMarker then
      { routes := f.express.routes, port := f.express.port, framework := "Express.js" }
    else { routes := [], port := none, framework := "Unknown" }

/-- The dedup identity key `(r.get('method'), r.get('path'), r.get('handler'))`
(routes_parser.py:497). -/
def routeKey (r : Route) : String × String × String := (r.method, r.path, r.handler)

/-- The dedup loop of routes_parser.py:493-500: keep a route when its key is
new, in first-seen order. -/
def dedupAux (seen : List (String × String × String)) : List Route → List Route
  | [] => []
  | r :: rest =>
    if routeKey r ∈ seen then dedupAux seen rest
    else r :: dedupAux (routeKey r :: seen) rest

def dedupRoutes (rs : List Route) : List Route := dedupAux [] rs

/-- The service entry stored for one file (routes_parser.py:502-507). -/
def serviceEntryOf (f : FileDesc) : ServiceEntry :=
  let pr := processFile f
  { port := pr.port, filePath := f.path, framework := pr.framework,
    routes := dedupRoutes pr.routes }

/-- The main loop of `parse_files`, accumulating `(service_name, entry)`
pairs in file order. -/
def parseFilesAux (acc : List (String × ServiceEntry)) : List FileDesc → List (String × ServiceEntry)
  | [] => acc
  | f :: rest =>
    let name := freshServiceName (acc.map Prod.fst) (baseNameOf f.path)
    parseFilesAux (acc ++ [(name, serviceEntryOf f)]) rest

/-- `RouteParser.parse_files` (routes_parser.py:420-516). -/
def parseFiles (fs : List FileDesc) : RoutesDoc :=
  let svcs := parseFilesAux [] fs
  { services := svcs
    totalServices := svcs.length
    totalRoutes := (svcs.map (fun e => e.2.routes.length)).sum }

/-- A file whose extraction produces nothing: either the file is unreadable,
or every extractor comes back empty-handed (for an unparsable file each
framework parser catches its own failure and returns no routes). -/
def extractionFails (f : FileDesc) : Bool :=
  !f.readOk ||
    (f.express.routes.isEmpty && f.flask.routes.isEmpty && f.fastapi.routes.isEmpty
      && (goParse f.goMatches).isEmpty)

/-! ## Concrete fixtures (the spec's own test scenarios, §8) -/

/-- Specification requiring auth on `create_order = POST /orders` for service
`OrderService`; no communications, no timeout policies. -/
def specOrders : RawSpecs :=
  { services := [("OrderService", [("create_order", { method := "POST", path := "/orders" })])]
    communications := []
    authRequired := ["create_order"]
    timeout := [] }

/-- An implementation document holding exactly the given routes under one
service. -/
def implDocOf (rs : List Route) : RoutesDoc :=
  { services := [("OrderService",
      { port := some 3000
        filePath := "orders.js"
        framework := "Express.js"
        routes := rs })]
    totalServices := 1
    totalRoutes := rs.length }

/-- A `POST` implementation route with the given path and middleware. -/
def postRoute (p : String) (mws : List String) : Route :=
  { name := "post_orders", method := "POST", path := p, middleware := mws,
    handler := "createOrder" }

/-- A three-node communication graph containing all six directed edges
between `A`, `B`, `C` — so the distinct directed cycles by unordered
membership are `{A,B}`, `{B,C}`, `{A,C}`, `{A,B,C}` — all of kind `sync`.
Also carries the `create_order` spec route and no timeout policy, so both
heuristic analyzers would produce output if they ran. -/
def cycleSpecSync : RawSpecs :=
  { services := [("OrderService", [("create_order", { method := "POST", path := "/orders" })])]
    communications :=
      [ { source := "A", target := "B", type := "sync" }
      , { source := "B", target := "C", type := "sync" }
      , { source := "C", target := "A", type := "sync" }
      , { source := "A", target := "C", type := "sync" }
      , { source := "C", target := "B", type := "sync" }
      , { source := "B", target := "A", type := "sync" } ]
    authRequired := ["create_order"]
    timeout := [] }

/-- A two-edge cycle whose edges are all of kind `async`. -/
def asyncCycleSpec : RawSpecs :=
  { services := []
    communications :=
      [ { source := "A", target := "B", type := "async" }
      , { source := "B", target := "A", type := "async" } ]
    authRequired := []
    timeout := [] }

/-- A minimal sync cycle `A→B, B→A`, used to instantiate the cycle-branch
theorem. -/
def smallCycleSpec : RawSpecs :=
  { services := []
    communications :=
      [ { source := "A", target := "B", type := "sync" }
      , { source := "B", target := "A", type := "sync" } ]
    authRequired := []
    timeout := [] }

/-- An empty implementation document. -/
def emptyDoc : RoutesDoc := { services := [], totalServices := 0, totalRoutes := 0 }

/-- The security analyzer's first concrete test route:
`{method: DELETE, path: "/users/:id", middleware: []}`. -/
def delUsersRoute : Route :=
  { name := "delete_users_id", method := "DELETE", path := "/users/:id", middleware := [],
    handler := "deleteUser" }

/-- The security analyzer's second concrete test route:
`{method: GET, path: "/users", middleware: []}`. -/
def getUsersRoute : Route :=
  { name := "get_users", method := "GET", path := "/users", middleware := [],
    handler := "listUsers" }

/-- An unreadable `.js` input file. -/
def unreadableJs : FileDesc := { defaultFile with path := "app.js", readOk := false }

/-- An unreadable `.py` input file. -/
def unreadablePy : FileDesc := { defaultFile with path := "svc.py", readOk := false }

/-- A Go source whose matches contain one Gin-style `POST` route. -/
def goPostMatches : GoMatches :=
  { handleFunc := [], ginStyle := [["router", "POST", "/orders", "createOrder"]],
    fiberStyle := [] }

/-- The route `goParse` produces from `goPostMatches`. -/
def goPostRoute : Route :=
  { name := "post_orders", method := "POST", path := "/orders", middleware := [],
    handler := "createOrder" }

/-- The internal form of `specOrders`. -/
def ordersSpecs : Specs := parseSpecsFile specOrders

/-- The tracker name of the `create_order` policy's spec route. -/
def ordersVarName : String := "OrderService_create_order"

/-- The MissingAuth diagnostic `_interpret_unsat_core` renders for
`create_order`. -/
def ordersAuthError : String :=
  "Policy Violation: Authentication is required for route 'OrderService_create_order' but is not implemented in its middleware."

/-- The MissingRoute diagnostic for `create_order`. -/
def ordersMissingRouteError : String :=
  "Policy Violation: The route 'OrderService_create_order', which requires authentication, is not implemented."

/-- The consistency suggestion for an unimplemented `create_order`. -/
def ordersSuggestion : String :=
  "Missing Implementation: Route 'create_order' (POST /orders) is defined in the spec for service 'OrderService' but is not found in routes.json. Consider implementing it."

/-! ## Lemmas about the parameter substitution -/

theorem isWordChar_ne_colon {c : Char} (h : isWordChar c = true) : (c == ':') = false := by
  by_contra hne
  have hc : c = ':' := by
    cases hcc : c == ':' with
    | false => exact absurd hcc hne
    | true => exact eq_of_beq hcc
  subst hc
  simp [isWordChar] at h

theorem headIsWord_substScan (l : List Char) :
    headIsWord (substScan false l) = headIsWord l := by
  cases l with
  | nil => rfl
  | cons c rest =>
    cases hg : (c == ':' && headIsWord rest) with
    | true =>
      have hc : c = ':' := eq_of_beq (Bool.and_elim_left hg)
      subst hc
      simp only [substScan]
      rw [hg, if_pos rfl]
      rfl
    | false =>
      simp only [substScan]
      rw [hg, if_neg Bool.false_ne_true]
      rfl

theorem noMatch_cons (c : Char) (t : List Char) :
    noMatch (c :: t) = ((!(c == ':' && headIsWord t)) && noMatch t) := rfl

theorem noMatch_substScan : ∀ (l : List Char) (s : Bool), noMatch (substScan s l) = true
  | [], false => rfl
  | [], true => rfl
  | c :: rest, true => by
    have e1 : (('}' : Char) == ':') = false := rfl
    have e2 : (('{' : Char) == ':') = false := rfl
    cases hw : isWordChar c with
    | true =>
      simp only [substScan]
      rw [hw, if_pos rfl, noMatch_cons, isWordChar_ne_colon hw]
      simp [noMatch_substScan rest true]
    | false =>
      cases hg : (c == ':' && headIsWord rest) with
      | true =>
        simp only [substScan]
        rw [hw, if_neg Bool.false_ne_true, hg, if_pos rfl, noMatch_cons, noMatch_cons, e1, e2]
        simp [noMatch_substScan rest true]
      | false =>
        simp only [substScan]
        rw [hw, if_neg Bool.false_ne_true, hg, if_neg Bool.false_ne_true,
          noMatch_cons, noMatch_cons, e1]
        rw [headIsWord_substScan rest, hg]
        simp [noMatch_substScan rest false]
  | c :: rest, false => by
    cases hg : (c == ':' && headIsWord rest) with
    | true =>
      have e2 : (('{' : Char) == ':') = false := rfl
      simp only [substScan]
      rw [hg, if_pos rfl, noMatch_cons, e2]
      simp [noMatch_substScan rest true]
    | false =>
      simp only [substScan]
      rw [hg, if_neg Bool.false_ne_true, noMatch_cons, headIsWord_substScan rest, hg]
      simp [noMatch_substScan rest false]

theorem substScan_fixed : ∀ l : List Char, noMatch l = true → substScan false l = l
  | [], _ => rfl
  | c :: rest, h => by
    rw [noMatch_cons] at h
    cases hg : (c == ':' && headIsWord rest) with
    | true => rw [hg] at h; simp at h
    | false =>
      rw [hg] at h
      simp at h
      simp only [substScan]
      rw [hg, if_neg Bool.false_ne_true, substScan_fixed rest h]

theorem noMatch_dropLast : ∀ l : List Char, noMatch l = true → noMatch l.dropLast = true
  | [], _ => rfl
  | [_], _ => rfl
  | c :: d :: rest, h => by
    rw [noMatch_cons] at h
    simp at h
    obtain ⟨h1, h2⟩ := h
    have h2' : noMatch (d :: rest) = true := h2
    have hrec := noMatch_dropLast (d :: rest) h2'
    show noMatch (c :: (d :: rest).dropLast) = true
    rw [noMatch_cons]
    cases rest with
    | nil => simp [headIsWord, noMatch]
    | cons e rest2 =>
      refine Bool.and_eq_true_iff.mpr ⟨?_, hrec⟩
      have hh : headIsWord ((e :: rest2).dropLast.cons d) = headIsWord (d :: e :: rest2) := rfl
      cases hcc : (c == ':') with
      | false => rfl
      | true =>
        have hc : c = ':' := eq_of_beq hcc
        subst hc
        rcases h1 with h1 | h1
        · exact absurd rfl h1
        · show (!(':' == ':' && headIsWord (d :: (e :: rest2).dropLast))) = true
          have : headIsWord (d :: (e :: rest2).dropLast) = false := h1
          rw [this]
          rfl

theorem noMatch_normalized (p : String) : noMatch (normalizePath p).data = true := by
  show noMatch (stripSlash (substParams p.data)) = true
  unfold stripSlash
  split
  · exact noMatch_dropLast _ (noMatch_substScan p.data false)
  · exact noMatch_substScan p.data false

/-! ## C2 — path normalization -/

/-- C2 (settled as amended).  The claim asserts idempotence for every string;
on the code this holds exactly when normalization does not retain a trailing
slash (equivalently, when the input does not end in `"//"` with further
characters before it), because `_normalize_path` strips only one trailing
slash.  The concrete equalities of the claim hold.  Totality is inherent:
`normalizePath` is a total function. -/
theorem normalizePath_spec :
    (∀ p : String,
        ¬(lastIsSlash (normalizePath p).data = true ∧ 1 < (normalizePath p).data.length) →
        normalizePath (normalizePath p) = normalizePath p) ∧
    normalizePath "/orders/" = "/orders" ∧ normalizePath "/" = "/" := by
  refine ⟨?_, by decide, by decide⟩
  intro p h
  have hnm : noMatch (normalizePath p).data = true := noMatch_normalized p
  show String.mk (stripSlash (substParams (normalizePath p).data)) = normalizePath p
  rw [show substParams (normalizePath p).data = (normalizePath p).data from
    substScan_fixed _ hnm]
  have hs : stripSlash (normalizePath p).data = (normalizePath p).data := by
    unfold stripSlash
    rw [if_neg]
    intro hcond
    have hsplit := Bool.and_eq_true_iff.mp hcond
    exact h ⟨hsplit.1, of_decide_eq_true hsplit.2⟩
  rw [hs]

/-- C2 counterexample: idempotence fails at `"/a//"`, which normalizes to
`"/a/"` while a second application yields `"/a"`. -/
theorem normalizePath_not_idempotent :
    normalizePath (normalizePath "/a//") ≠ normalizePath "/a//" ∧
    normalizePath "/a//" = "/a/" ∧ normalizePath (normalizePath "/a//") = "/a" := by
  refine ⟨by decide, by decide, by decide⟩

/-- Witness for `normalizePath_spec` at `p = "/orders"`. -/
theorem normalizePath_spec_witness :
    ¬(lastIsSlash (normalizePath "/orders").data = true ∧
        1 < (normalizePath "/orders").data.length) ∧
    normalizePath (normalizePath "/orders") = normalizePath "/orders" :=
  ⟨by decide, normalizePath_spec.1 "/orders" (by decide)⟩

/-! ## Security-analyzer lemmas (shared by C9 and C10) -/

theorem securityAnalyze_mem {routes : List Route} {r : Route} (h : r ∈ routes) {w : String}
    (hw : w ∈ securityPerRoute r) : w ∈ securityAnalyze routes := by
  unfold securityAnalyze
  rw [List.mem_flatten]
  exact ⟨securityPerRoute r, List.mem_map_of_mem _ h, hw⟩

theorem authWarning_mem_perRoute {r : Route}
    (hm : r.method = "POST" ∨ r.method = "PUT" ∨ r.method = "DELETE")
    (ha : hasAuthMiddleware r.middleware = false) :
    authWarning r ∈ securityPerRoute r := by
  unfold securityPerRoute
  have hcond : ((r.method == "POST" || r.method == "PUT" || r.method == "DELETE")
      && !hasAuthMiddleware r.middleware) = true := by
    rw [ha]
    rcases hm with h | h | h <;> simp [h]
  rw [if_pos hcond]
  exact List.mem_append_left _ (List.mem_singleton_self _)

theorem validationWarning_mem_perRoute {r : Route}
    (hp : r.path.data.contains ':' = true ∨ r.path.data.contains '{' = true)
    (hv : hasValidationMiddleware r.middleware = false) :
    validationWarning r ∈ securityPerRoute r := by
  unfold securityPerRoute
  have hcond : ((r.path.data.contains ':' || r.path.data.contains '{')
      && !hasValidationMiddleware r.middleware) = true := by
    rw [hv]
    rcases hp with h | h
    · rw [h, Bool.true_or]
      rfl
    · rw [h, Bool.or_true]
      rfl
  rw [if_pos hcond]
  exact List.mem_append_right _ (List.mem_singleton_self _)

/-! ## C9 — security analyzer -/

/-- C9 (confirmed).  `DELETE /users/:id` with empty middleware yields exactly
the missing-auth and missing-validation warnings, `GET /users` yields none,
and in general a warning fires for every mutating-method route without an
auth keyword and for every parameterized-path route without a validation
keyword. -/
theorem security_analyzer_spec :
    securityAnalyze [delUsersRoute]
        = [authWarning delUsersRoute, validationWarning delUsersRoute] ∧
    securityAnalyze [getUsersRoute] = [] ∧
    (∀ (routes : List Route) (r : Route), r ∈ routes →
      (r.method = "POST" ∨ r.method = "PUT" ∨ r.method = "DELETE") →
      hasAuthMiddleware r.middleware = false →
      authWarning r ∈ securityAnalyze routes) ∧
    (∀ (routes : List Route) (r : Route), r ∈ routes →
      (r.path.data.contains ':' = true ∨ r.path.data.contains '{' = true) →
      hasValidationMiddleware r.middleware = false →
      validationWarning r ∈ securityAnalyze routes) := by
  refine ⟨by decide, by decide, ?_, ?_⟩
  · intro routes r hr hm ha
    exact securityAnalyze_mem hr (authWarning_mem_perRoute hm ha)
  · intro routes r hr hp hv
    exact securityAnalyze_mem hr (validationWarning_mem_perRoute hp hv)

/-- Witness for `security_analyzer_spec` at the `DELETE /users/:id` route. -/
theorem security_analyzer_spec_witness :
    delUsersRoute ∈ [delUsersRoute] ∧
    authWarning delUsersRoute ∈ securityAnalyze [delUsersRoute] :=
  ⟨by decide,
    security_analyzer_spec.2.2.1 [delUsersRoute] delUsersRoute (by decide)
      (Or.inr (Or.inr rfl)) (by decide)⟩

/-! ## C10 — Go extractor middleware invariant -/

theorem mem_goRouteOfAny_mw : ∀ (g : List String) (r : Route),
    r ∈ goRouteOfAny g → r.middleware = []
  | [], _, h => by simp [goRouteOfAny] at h
  | [_], _, h => by simp [goRouteOfAny] at h
  | _ :: _ :: _, r, h => by
    simp [goRouteOfAny] at h
    rw [h]

theorem mem_goRouteOfVerb_mw : ∀ (g : List String) (r : Route),
    r ∈ goRouteOfVerb g → r.middleware = []
  | [], _, h => by simp [goRouteOfVerb] at h
  | [_], _, h => by simp [goRouteOfVerb] at h
  | [_, _], _, h => by simp [goRouteOfVerb] at h
  | [_, _, _], _, h => by simp [goRouteOfVerb] at h
  | _ :: _ :: _ :: _ :: _, r, h => by
    simp [goRouteOfVerb] at h
    rw [h]

theorem goParse_middleware_nil {ms : GoMatches} {r : Route} (h : r ∈ goParse ms) :
    r.middleware = [] := by
  unfold goParse at h
  rcases List.mem_append.mp h with h12 | h3
  · rcases List.mem_append.mp h12 with h1 | h2
    · obtain ⟨l, hl, hr⟩ := List.mem_flatten.mp h1
      obtain ⟨g, _, rfl⟩ := List.mem_map.mp hl
      exact mem_goRouteOfAny_mw g r hr
    · obtain ⟨l, hl, hr⟩ := List.mem_flatten.mp h2
      obtain ⟨g, _, rfl⟩ := List.mem_map.mp hl
      exact mem_goRouteOfVerb_mw g r hr
  · obtain ⟨l, hl, hr⟩ := List.mem_flatten.mp h3
    obtain ⟨g, _, rfl⟩ := List.mem_map.mp hl
    exact mem_goRouteOfVerb_mw g r hr

/-- C10 (confirmed).  Every route the Go extractor produces has an empty
middleware list, whatever the matches are; consequently every Go-extracted
route with a mutating method is reported by the security analyzer as missing
authentication. -/
theorem go_routes_unauthenticated :
    ∀ (ms : GoMatches) (r : Route), r ∈ goParse ms →
      r.middleware = [] ∧
      ((r.method = "POST" ∨ r.method = "PUT" ∨ r.method = "DELETE") →
        authWarning r ∈ securityAnalyze (goParse ms)) := by
  intro ms r h
  have hmw := goParse_middleware_nil h
  refine ⟨hmw, fun hm => ?_⟩
  have ha : hasAuthMiddleware r.middleware = false := by rw [hmw]; rfl
  exact securityAnalyze_mem h (authWarning_mem_perRoute hm ha)

/-- Witness for `go_routes_unauthenticated` at a concrete Gin-style `POST`
match. -/
theorem go_routes_unauthenticated_witness :
    goPostRoute ∈ goParse goPostMatches ∧ goPostRoute.middleware = [] ∧
    authWarning goPostRoute ∈ securityAnalyze (goParse goPostMatches) := by
  have h := go_routes_unauthenticated goPostMatches goPostRoute (by decide)
  exact ⟨by decide, h.1, h.2 (Or.inl (by decide))⟩

/-! ## C8 — route deduplication -/

theorem dedupAux_key_not_seen : ∀ (rs : List Route) (seen : List (String × String × String))
    (r : Route), r ∈ dedupAux seen rs → routeKey r ∉ seen
  | [], _, _, h => absurd h (List.not_mem_nil _)
  | r0 :: rest, seen, r, h => by
    unfold dedupAux at h
    by_cases hk : routeKey r0 ∈ seen
    · rw [if_pos hk] at h
      exact dedupAux_key_not_seen rest seen r h
    · rw [if_neg hk] at h
      rcases List.mem_cons.mp h with rfl | h2
      · exact hk
      · intro hmem
        exact dedupAux_key_not_seen rest (routeKey r0 :: seen) r h2
          (List.mem_cons_of_mem _ hmem)

theorem dedupAux_pairwise : ∀ (rs : List Route) (seen : List (String × String × String)),
    (dedupAux seen rs).Pairwise (fun a b => routeKey a ≠ routeKey b)
  | [], _ => List.Pairwise.nil
  | r0 :: rest, seen => by
    unfold dedupAux
    by_cases hk : routeKey r0 ∈ seen
    · rw [if_pos hk]
      exact dedupAux_pairwise rest seen
    · rw [if_neg hk]
      refine List.Pairwise.cons (fun b hb heq => ?_) (dedupAux_pairwise rest _)
      exact dedupAux_key_not_seen rest (routeKey r0 :: seen) b hb
        (heq ▸ List.mem_cons_self _ _)

theorem dedupAux_sublist : ∀ (rs : List Route) (seen : List (String × String × String)),
    (dedupAux seen rs).Sublist rs
  | [], _ => List.nil_sublist _
  | r0 :: rest, seen => by
    unfold dedupAux
    by_cases hk : routeKey r0 ∈ seen
    · rw [if_pos hk]
      exact List.Sublist.cons _ (dedupAux_sublist rest seen)
    · rw [if_neg hk]
      exact List.Sublist.cons₂ _ (dedupAux_sublist rest _)

/-- C8 (confirmed).  The retained route sequence of a scanned file contains
no two entries with the same `(method, path, handler)` key, and it is a
sublist of the extracted sequence, i.e. retained entries appear in first-seen
order; `parse_files` stores exactly this deduplicated sequence for every
file. -/
theorem dedup_spec : ∀ rs : List Route,
    (dedupRoutes rs).Pairwise (fun a b => routeKey a ≠ routeKey b) ∧
    (dedupRoutes rs).Sublist rs ∧
    (∀ f : FileDesc, (serviceEntryOf f).routes = dedupRoutes (processFile f).routes) :=
  fun rs => ⟨dedupAux_pairwise rs [], dedupAux_sublist rs [], fun _ => rfl⟩

/-! ## C4 — per-file failure handling in parse_files -/

theorem parseFilesAux_snd : ∀ (fs : List FileDesc) (acc : List (String × ServiceEntry)),
    (parseFilesAux acc fs).map Prod.snd = acc.map Prod.snd ++ fs.map serviceEntryOf
  | [], acc => by simp [parseFilesAux]
  | f :: rest, acc => by
    show (parseFilesAux (acc ++ [(freshServiceName (acc.map Prod.fst) (baseNameOf f.path),
        serviceEntryOf f)]) rest).map Prod.snd = _
    rw [parseFilesAux_snd rest _]
    simp

set_option maxHeartbeats 1600000 in
theorem extraction_fails_no_routes (f : FileDesc) (hf : extractionFails f = true) :
    (processFile f).routes = [] := by
  unfold extractionFails at hf
  rcases Bool.or_eq_true_iff.mp hf with hro | hall
  · have hro' : f.readOk = false := by
      cases hx : f.readOk with
      | false => rfl
      | true => rw [hx] at hro; exact absurd hro (by decide)
    simp only [processFile, hro', Bool.not_false, if_true, if_false, Bool.false_eq_true,
      ite_false, ite_true]
    split_ifs <;> rfl
  · obtain ⟨h123, h4e⟩ := Bool.and_eq_true_iff.mp hall
    obtain ⟨h12, h3e⟩ := Bool.and_eq_true_iff.mp h123
    obtain ⟨h1e, h2e⟩ := Bool.and_eq_true_iff.mp h12
    have h1 : f.express.routes = [] := List.isEmpty_iff.mp h1e
    have h2 : f.flask.routes = [] := List.isEmpty_iff.mp h2e
    have h3 : f.fastapi.routes = [] := List.isEmpty_iff.mp h3e
    have h4 : goParse f.goMatches = [] := List.isEmpty_iff.mp h4e
    simp only [processFile]
    split_ifs <;> simp [h1, h2, h3, h4, emptyOutcome, pyPortOr]

/-- C4 (settled as amended).  A failed file never aborts the run: every input
file, failed or not, contributes exactly one service entry (in order), and a
failed file's entry has an empty route list.  The framework label, however,
is `Unknown` only when the failure strikes in the dispatcher's own scope
(e.g. an unreadable `.py` file); an unreadable `.js` or `.go` file keeps its
extension-derived label (see the counterexample). -/
theorem parse_files_resilient : ∀ fs : List FileDesc,
    ((parseFiles fs).services.map Prod.snd = fs.map serviceEntryOf) ∧
    (parseFiles fs).services.length = fs.length ∧
    (parseFiles fs).totalServices = fs.length ∧
    (∀ f : FileDesc, extractionFails f = true → (serviceEntryOf f).routes = []) := by
  intro fs
  have hsnd : (parseFiles fs).services.map Prod.snd = fs.map serviceEntryOf := by
    show (parseFilesAux [] fs).map Prod.snd = fs.map serviceEntryOf
    rw [parseFilesAux_snd fs []]
    simp
  have hlen : (parseFiles fs).services.length = fs.length := by
    have := congrArg List.length hsnd
    simpa using this
  refine ⟨hsnd, hlen, hlen, fun f hf => ?_⟩
  show dedupRoutes (processFile f).routes = []
  rw [extraction_fails_no_routes f hf]
  rfl

/-- C4 counterexample: an unreadable `.js` file yields an (empty-routed)
Service entry whose framework is `"Express.js"`, not `"Unknown"` as the claim
states. -/
theorem parse_files_unknown_framework_cex :
    extractionFails unreadableJs = true ∧
    (serviceEntryOf unreadableJs).routes = [] ∧
    (serviceEntryOf unreadableJs).framework = "Express.js" ∧
    (serviceEntryOf unreadableJs).framework ≠ "Unknown" :=
  ⟨by decide, by decide, by decide, by decide⟩

/-- Witness for `parse_files_resilient` at an unreadable `.py` file. -/
theorem parse_files_resilient_witness :
    extractionFails unreadablePy = true ∧ (serviceEntryOf unreadablePy).routes = [] :=
  ⟨by decide, (parse_files_resilient []).2.2.2 unreadablePy (by decide)⟩

/-! ## C3 — the cycle-gate graph does not filter by kind -/

theorem lookupAdj_cons_ne (k : String) (vs : List String) (g : Graph) (s : String)
    (h : (k == s) = false) : lookupAdj ((k, vs) :: g) s = lookupAdj g s := by
  simp [lookupAdj, List.find?, h]

theorem lookupAdj_cons_eq (k : String) (vs : List String) (g : Graph) (s : String)
    (h : (k == s) = true) : lookupAdj ((k, vs) :: g) s = vs := by
  simp [lookupAdj, List.find?, h]

theorem lookupAdj_addEdge_self : ∀ (g : Graph) (s t : String),
    t ∈ lookupAdj (addEdge g s t) s
  | [], s, t => by
    simp [addEdge, lookupAdj, List.find?]
  | (k, vs) :: rest, s, t => by
    unfold addEdge
    cases hk : (k == s) with
    | true =>
      rw [if_pos rfl, lookupAdj_cons_eq k _ rest s hk]
      exact List.mem_append_right _ (List.mem_singleton_self _)
    | false =>
      rw [if_neg Bool.false_ne_true, lookupAdj_cons_ne k vs _ s hk]
      exact lookupAdj_addEdge_self rest s t

theorem lookupAdj_addEdge_mono : ∀ (g : Graph) (s2 t2 s x : String),
    x ∈ lookupAdj g s → x ∈ lookupAdj (addEdge g s2 t2) s
  | [], _, _, s, x, h => by
    simp [lookupAdj, List.find?] at h
  | (k, vs) :: rest, s2, t2, s, x, h => by
    unfold addEdge
    cases hk2 : (k == s2) with
    | true =>
      rw [if_pos rfl]
      cases hk : (k == s) with
      | true =>
        rw [lookupAdj_cons_eq k _ rest s hk]
        rw [lookupAdj_cons_eq k vs rest s hk] at h
        exact List.mem_append_left _ h
      | false =>
        rw [lookupAdj_cons_ne k _ rest s hk]
        rwa [lookupAdj_cons_ne k vs rest s hk] at h
    | false =>
      rw [if_neg Bool.false_ne_true]
      cases hk : (k == s) with
      | true =>
        rw [lookupAdj_cons_eq k vs _ s hk]
        rwa [lookupAdj_cons_eq k vs rest s hk] at h
      | false =>
        rw [lookupAdj_cons_ne k vs _ s hk]
        rw [lookupAdj_cons_ne k vs rest s hk] at h
        exact lookupAdj_addEdge_mono rest s2 t2 s x h

theorem lookupAdj_depFold_mono : ∀ (comms : List CommEdge) (g : Graph) (s x : String),
    x ∈ lookupAdj g s →
    x ∈ lookupAdj (comms.foldl
      (fun g c => if c.source ≠ "" ∧ c.target ≠ "" then addEdge g c.source c.target else g) g) s
  | [], _, _, _, h => h
  | c0 :: rest, g, s, x, h => by
    simp only [List.foldl]
    refine lookupAdj_depFold_mono rest _ s x ?_
    by_cases hc : c0.source ≠ "" ∧ c0.target ≠ ""
    · rw [if_pos hc]
      exact lookupAdj_addEdge_mono g c0.source c0.target s x h
    · rwa [if_neg hc]

theorem buildDepGraph_mem_aux : ∀ (comms : List CommEdge) (g : Graph) (c : CommEdge),
    c ∈ comms → c.source ≠ "" → c.target ≠ "" →
    c.target ∈ lookupAdj (comms.foldl
      (fun g c => if c.source ≠ "" ∧ c.target ≠ "" then addEdge g c.source c.target else g) g)
      c.source
  | [], _, _, h, _, _ => absurd h (List.not_mem_nil _)
  | c0 :: rest, g, c, h, hs, ht => by
    simp only [List.foldl]
    rcases List.mem_cons.mp h with rfl | h2
    · rw [if_pos ⟨hs, ht⟩]
      exact lookupAdj_depFold_mono rest _ c.source c.target
        (lookupAdj_addEdge_self g c.source c.target)
    · exact buildDepGraph_mem_aux rest _ c h2 hs ht

/-- C3 (settled as amended).  The cycle-gate graph
(`DependencyAnalyzer._build_dependency_graph`) adds an edge for every
communication with truthy source and target regardless of its kind — async
and unknown edges included — whereas only the performance analyzer's chain
graph (`PerformanceAnalyzer.build_dependency_graph`) restricts to
`sync`-kind edges. -/
theorem dep_graph_ignores_kind :
    (∀ (comms : List CommEdge) (c : CommEdge), c ∈ comms → c.source ≠ "" → c.target ≠ "" →
      c.target ∈ lookupAdj (buildDepGraph comms) c.source) ∧
    (∀ c : CommEdge, buildSyncGraph [c] =
      if c.source ≠ "" ∧ c.target ≠ "" ∧ c.type = "sync" then [(c.source, [c.target])]
      else []) := by
  constructor
  · intro comms c h hs ht
    exact buildDepGraph_mem_aux comms [] c h hs ht
  · intro c
    simp only [buildSyncGraph, List.foldl]
    split_ifs <;> rfl

/-- C3 counterexample: a cycle consisting only of `async` edges makes the run
unsatisfiable (the claim says it must not). -/
theorem async_cycle_unsat_cex :
    (∀ c ∈ asyncCycleSpec.communications, c.type = "async") ∧
    (verify asyncCycleSpec emptyDoc).is_sat = false ∧
    (verify asyncCycleSpec emptyDoc).errors ≠ [] :=
  ⟨by decide, by decide, by decide⟩

/-- Witness for `dep_graph_ignores_kind` at the async edge `A → B`. -/
theorem dep_graph_ignores_kind_witness :
    ({ source := "A", target := "B", type := "async" } : CommEdge)
        ∈ asyncCycleSpec.communications ∧
    "B" ∈ lookupAdj (buildDepGraph asyncCycleSpec.communications) "A" :=
  ⟨by decide,
    dep_graph_ignores_kind.1 asyncCycleSpec.communications
      { source := "A", target := "B", type := "async" } (by decide) (by decide) (by decide)⟩

/-! ## C1 — the cycle branch -/

/-- C1 (settled as amended).  Whenever the DFS cycle detector records at
least one cycle, `verify` returns immediately: `satisfiable = false`,
`errors` = the formatted messages of the recorded cycles (deduplicated by the
sorted node multiset of each recorded rotation — which can miss distinct
cycles of the graph, see the counterexample), no TrackedAssumption is
created, the solver is never invoked, and — contrary to the claim — the
heuristic analyzers do NOT run: `warnings` and `suggestions` are empty in
this branch. -/
theorem cycle_branch_short_circuits :
    ∀ (raw : RawSpecs) (rd : RoutesDoc),
      findCycleMessages (parseSpecsFile raw).communications ≠ [] →
      verifyI raw rd =
        { result :=
            { is_sat := false
              model := none
              errors := findCycleMessages (parseSpecsFile raw).communications
              warnings := []
              suggestions := [] }
          tracked := []
          solverInvoked := false } := by
  intro raw rd h
  simp only [verifyI]
  rw [if_neg (fun hc => h (List.isEmpty_iff.mp hc))]

/-- C1 counterexample, at the three-node graph carrying all six directed
edges (all `sync`).  The run takes the cycle branch with empty `warnings`
and `suggestions`, even though both heuristic analyzers would produce output
(no timeout policy; `create_order` has no implementation); and the reported
errors are three messages among which no rotation of the genuine distinct
cycle `{A, C}` (edges `A → C` and `C → A` are both in the graph) appears, so
"one message per distinct cycle deduplicated by unordered membership" also
fails. -/
theorem cycle_branch_cex :
    (verify cycleSpecSync emptyDoc).is_sat = false ∧
    (verify cycleSpecSync emptyDoc).errors =
      [ "Architectural Error: Circular dependency detected: A -> B -> C -> A"
      , "Architectural Error: Circular dependency detected: B -> C -> B"
      , "Architectural Error: Circular dependency detected: A -> B -> A" ] ∧
    (verify cycleSpecSync emptyDoc).warnings = [] ∧
    (verify cycleSpecSync emptyDoc).suggestions = [] ∧
    consistencySuggestions (parseSpecsFile cycleSpecSync) (allRoutes emptyDoc) ≠ [] ∧
    performanceAnalyze (parseSpecsFile cycleSpecSync) ≠ [] ∧
    "C" ∈ lookupAdj (buildDepGraph cycleSpecSync.communications) "A" ∧
    "A" ∈ lookupAdj (buildDepGraph cycleSpecSync.communications) "C" ∧
    (∀ e ∈ (verify cycleSpecSync emptyDoc).errors, containsSub e "A -> C" = false) := by
  refine ⟨by decide, by decide, by decide, by decide, by decide, ?_, by decide, by decide,
    by decide⟩
  show performanceAnalyze (parseSpecsFile cycleSpecSync) ≠ []
  unfold performanceAnalyze
  rw [if_pos (show (parseSpecsFile cycleSpecSync).timeout.isEmpty = true from rfl)]
  intro hc
  exact absurd (List.append_eq_nil.mp hc).2 (by simp)

/-- Witness for `cycle_branch_short_circuits` at the minimal sync cycle. -/
theorem cycle_branch_short_circuits_witness :
    findCycleMessages (parseSpecsFile smallCycleSpec).communications ≠ [] ∧
    verifyI smallCycleSpec emptyDoc =
      { result :=
          { is_sat := false
            model := none
            errors := findCycleMessages (parseSpecsFile smallCycleSpec).communications
            warnings := []
            suggestions := [] }
        tracked := []
        solverInvoked := false } :=
  ⟨by decide, cycle_branch_short_circuits smallCycleSpec emptyDoc (by decide)⟩

/-! ## The auth-policy scenario (C5, C6, C7) -/

theorem addPolicy_orders_eq (rts : List Route) :
    addPolicyConstraints (parseSpecsFile specOrders) rts =
      (match implMatch rts "POST" (normalizePath "/orders") with
       | some r =>
         if hasAuthMiddleware r.middleware then ([] : List String)
         else [authAssumptionName ordersVarName]
       | none => [routeMissingAssumptionName ordersVarName]) ++ [] := rfl

theorem consistency_orders_shape (rts : List Route) :
    consistencySuggestions (parseSpecsFile specOrders) rts =
      ((if rts.any (routeMatches "POST" (normalizePath "/orders")) then ([] : List String)
        else [ordersSuggestion]) ++ []) ++ [] := rfl

theorem allRoutes_implDocOf (rs : List Route) : allRoutes (implDocOf rs) = rs := by
  show rs ++ [] = rs
  exact List.append_nil rs

/-- C5 (confirmed).  When the spec requires auth on `create_order = POST
/orders` and the implementation carries a matching route whose middleware has
no auth keyword, `verify` is unsatisfiable with exactly one MissingAuth
diagnostic naming that route. -/
theorem missing_auth_diagnostic :
    ∀ (mws : List String) (ip : String),
      hasAuthMiddleware mws = false →
      normalizePath ip = normalizePath "/orders" →
      (verify specOrders (implDocOf [postRoute ip mws])).is_sat = false ∧
      (verify specOrders (implDocOf [postRoute ip mws])).errors = [ordersAuthError] := by
  intro mws ip ha hp
  have himpl : implMatch (allRoutes (implDocOf [postRoute ip mws])) "POST"
      (normalizePath "/orders") = some (postRoute ip mws) := by
    rw [allRoutes_implDocOf]
    have hpred : routeMatches "POST" (normalizePath "/orders") (postRoute ip mws) = true := by
      unfold routeMatches postRoute
      simp [hp]
    simp [implMatch, List.find?, hpred]
  have htr : addPolicyConstraints (parseSpecsFile specOrders)
      (allRoutes (implDocOf [postRoute ip mws])) = [authAssumptionName ordersVarName] := by
    rw [addPolicy_orders_eq, himpl]
    simp [postRoute, ha]
  have hver : verify specOrders (implDocOf [postRoute ip mws]) =
      { is_sat := false
        model := none
        errors := [ordersAuthError]
        warnings := securityAnalyze (allRoutes (implDocOf [postRoute ip mws]))
          ++ performanceAnalyze (parseSpecsFile specOrders)
        suggestions := consistencySuggestions (parseSpecsFile specOrders)
          (allRoutes (implDocOf [postRoute ip mws])) } := by
    simp only [verify, verifyI]
    rw [if_pos (show (findCycleMessages
      (parseSpecsFile specOrders).communications).isEmpty = true from rfl)]
    rw [htr]
    rfl
  rw [hver]
  exact ⟨rfl, rfl⟩

/-- Witness for `missing_auth_diagnostic` with empty middleware on
`POST /orders`. -/
theorem missing_auth_diagnostic_witness :
    hasAuthMiddleware [] = false ∧
    (verify specOrders (implDocOf [postRoute "/orders" []])).errors = [ordersAuthError] :=
  ⟨by decide, (missing_auth_diagnostic [] "/orders" (by decide) rfl).2⟩

/-- C6 (confirmed).  When the spec requires auth on `create_order` and the
implementation has no method + normalized-path match at all, `verify` is
unsatisfiable with the MissingRoute diagnostic, and the consistency check
also emits its suggestion naming `create_order`: both channels fire. -/
theorem missing_route_both_channels :
    ∀ rs : List Route,
      implMatch rs "POST" (normalizePath "/orders") = none →
      (verify specOrders (implDocOf rs)).is_sat = false ∧
      (verify specOrders (implDocOf rs)).errors = [ordersMissingRouteError] ∧
      (verify specOrders (implDocOf rs)).suggestions = [ordersSuggestion] := by
  intro rs h
  have himpl : implMatch (allRoutes (implDocOf rs)) "POST" (normalizePath "/orders") = none := by
    rw [allRoutes_implDocOf]
    exact h
  have hany : rs.any (routeMatches "POST" (normalizePath "/orders")) = false := by
    cases hx : rs.any (routeMatches "POST" (normalizePath "/orders")) with
    | false => rfl
    | true =>
      obtain ⟨x, hx1, hx2⟩ := List.any_eq_true.mp hx
      have := List.find?_eq_none.mp h x hx1
      exact absurd hx2 this
  have htr : addPolicyConstraints (parseSpecsFile specOrders) (allRoutes (implDocOf rs)) =
      [routeMissingAssumptionName ordersVarName] := by
    rw [addPolicy_orders_eq, himpl]
    rfl
  have hsugg : consistencySuggestions (parseSpecsFile specOrders) (allRoutes (implDocOf rs)) =
      [ordersSuggestion] := by
    rw [consistency_orders_shape, allRoutes_implDocOf, hany]
    simp
  have hver : verify specOrders (implDocOf rs) =
      { is_sat := false
        model := none
        errors := [ordersMissingRouteError]
        warnings := securityAnalyze (allRoutes (implDocOf rs))
          ++ performanceAnalyze (parseSpecsFile specOrders)
        suggestions := consistencySuggestions (parseSpecsFile specOrders)
          (allRoutes (implDocOf rs)) } := by
    simp only [verify, verifyI]
    rw [if_pos (show (findCycleMessages
      (parseSpecsFile specOrders).communications).isEmpty = true from rfl)]
    rw [htr]
    rfl
  rw [hver]
  exact ⟨rfl, rfl, hsugg⟩

/-- Witness for `missing_route_both_channels` at the empty implementation. -/
theorem missing_route_both_channels_witness :
    implMatch [] "POST" (normalizePath "/orders") = none ∧
    (verify specOrders (implDocOf [])).suggestions = [ordersSuggestion] :=
  ⟨by decide, (missing_route_both_channels [] rfl).2.2⟩

/-- C7 (settled as amended).  With no cycle and every auth-required route
implemented with auth middleware, `verify` returns `satisfiable = true` with
`errors = []`; but the returned model is the EMPTY assignment, not the full
term→boolean assignment: the allocated service and route terms never occur in
any solver constraint (every assertion is a tracked `False`), so the
decision procedure's model interprets none of them. -/
theorem satisfiable_run :
    ∀ (mws : List String) (ip : String),
      hasAuthMiddleware mws = true →
      normalizePath ip = normalizePath "/orders" →
      (verify specOrders (implDocOf [postRoute ip mws])).is_sat = true ∧
      (verify specOrders (implDocOf [postRoute ip mws])).errors = [] ∧
      (verify specOrders (implDocOf [postRoute ip mws])).model = some [] := by
  intro mws ip ha hp
  have himpl : implMatch (allRoutes (implDocOf [postRoute ip mws])) "POST"
      (normalizePath "/orders") = some (postRoute ip mws) := by
    rw [allRoutes_implDocOf]
    have hpred : routeMatches "POST" (normalizePath "/orders") (postRoute ip mws) = true := by
      unfold routeMatches postRoute
      simp [hp]
    simp [implMatch, List.find?, hpred]
  have htr : addPolicyConstraints (parseSpecsFile specOrders)
      (allRoutes (implDocOf [postRoute ip mws])) = [] := by
    rw [addPolicy_orders_eq, himpl]
    simp [postRoute, ha]
  have hver : verify specOrders (implDocOf [postRoute ip mws]) =
      { is_sat := true
        model := some []
        errors := []
        warnings := securityAnalyze (allRoutes (implDocOf [postRoute ip mws]))
          ++ performanceAnalyze (parseSpecsFile specOrders)
        suggestions := consistencySuggestions (parseSpecsFile specOrders)
          (allRoutes (implDocOf [postRoute ip mws])) } := by
    simp only [verify, verifyI]
    rw [if_pos (show (findCycleMessages
      (parseSpecsFile specOrders).communications).isEmpty = true from rfl)]
    rw [htr]
    rfl
  rw [hver]
  exact ⟨rfl, rfl, rfl⟩

/-- C7 counterexample: at the claim's own satisfiable scenario
(`POST /orders` implemented with middleware `["authenticate"]`), the model is
`some []` while two terms were allocated, so the model is not the full
term→boolean assignment for the allocated terms. -/
theorem satisfiable_model_empty_cex :
    (verify specOrders (implDocOf [postRoute "/orders" ["authenticate"]])).is_sat = true ∧
    (verify specOrders (implDocOf [postRoute "/orders" ["authenticate"]])).model = some [] ∧
    allocatedTerms (parseSpecsFile specOrders) = ["service_OrderService", ordersVarName] ∧
    ¬(∀ t ∈ allocatedTerms (parseSpecsFile specOrders), ∃ b : Bool,
        (t, b) ∈ ((verify specOrders
          (implDocOf [postRoute "/orders" ["authenticate"]])).model.getD [])) := by
  have h := satisfiable_run ["authenticate"] "/orders" (by decide) rfl
  refine ⟨h.1, h.2.2, by decide, fun hfull => ?_⟩
  obtain ⟨b, hb⟩ := hfull "service_OrderService" (by decide)
  rw [h.2.2] at hb
  simp at hb

/-- Witness for `satisfiable_run` at middleware `["authenticate"]`. -/
theorem satisfiable_run_witness :
    hasAuthMiddleware ["authenticate"] = true ∧
    (verify specOrders (implDocOf [postRoute "/orders" ["authenticate"]])).is_sat = true :=
  ⟨by decide, (satisfiable_run ["authenticate"] "/orders" (by decide) rfl).1⟩

end HV
